import Mathlib

/-
Verification of the resume-generator content-selection pipeline.

The Python sources under scripts/ are shallowly embedded: each Python
function that the properties talk about becomes a Lean definition over
explicit data. Calls to the external text-generation service are modelled
by an explicit outcome value (exception raised, unparseable reply, or a
parsed reply), so that every code path of the Python function, including
its exception handlers, is a branch of the Lean definition.
-/

namespace ResumeGen

/-- An experience or project entry, as consumed by the selection code in
scripts/step1_relevance_filter.py. The Python code treats entries as dicts
compared by value; only the priority field is inspected by the selector
(`exp.get("priority")` yields `none` when the key is absent), so an entry is
modelled as an identity tag plus the optional priority string. -/
structure Item where
  id : Nat
  priority : Option String
deriving DecidableEq, Repr

/-- Outcome of one chat-completion call whose reply is fed to json.loads:
either the call raised (the outer `except Exception` branch), or json.loads
raised / produced a non-list (the inner `except (JSONDecodeError, ValueError)`
branch), or a JSON list was obtained. A list element is `some n` when it is a
Python int of value `n` (the `isinstance(idx, int)` test) and `none` otherwise. -/
inductive RankOutcome where
  | exn : RankOutcome
  | parseFail : RankOutcome
  | indices : List (Option Int) → RankOutcome
deriving DecidableEq, Repr

/-- The index-validation loop of llm_rank_experiences (lines 143-146):
`for idx in sel: if isinstance(idx, int) and 1 <= idx <= len(pool): append pool[idx-1]`. -/
def pickValid (pool : List Item) (idxs : List (Option Int)) : List Item :=
  idxs.filterMap (fun i => i.bind (fun n =>
    if 1 ≤ n ∧ n ≤ (pool.length : Int) then pool.get? (n - 1).toNat else none))

/-- Embedding of llm_rank_experiences (step1_relevance_filter.py, lines 55-173).
The prompt construction is irrelevant to the returned value and is omitted;
`resp` stands for the outcome of the service call. -/
def llm_rank_experiences (experiences : List Item) (max_count : Nat)
    (resp : RankOutcome) : List Item :=
  if experiences.length ≤ max_count then experiences
  else
    let high_priority := experiences.filter (fun e => e.priority = some "high")
    let medium_priority := experiences.filter (fun e => e.priority = some "medium")
    let low_priority := experiences.filter (fun e => e.priority = some "low")
    let no_priority := experiences.filter (fun e => e.priority = none)
    let selected_experiences := high_priority
    -- remaining_slots = max_count - len(selected); `remaining_slots <= 0` in Python ints
    if max_count ≤ selected_experiences.length then
      selected_experiences.take max_count
    else
      let remaining_slots := max_count - selected_experiences.length
      let remaining_experiences := medium_priority ++ low_priority ++ no_priority
      if remaining_experiences.isEmpty then selected_experiences
      else if remaining_experiences.length ≤ remaining_slots then
        selected_experiences ++ remaining_experiences
      else
        match resp with
        | .exn =>
          (selected_experiences ++ remaining_experiences.take remaining_slots).take max_count
        | .parseFail =>
          (selected_experiences ++ remaining_experiences.take remaining_slots).take max_count
        | .indices selected_indices =>
          let llm_selected := pickValid remaining_experiences (selected_indices.take remaining_slots)
          let llm_selected :=
            if llm_selected.length < remaining_slots then
              llm_selected ++
                (remaining_experiences.filter (fun e => decide (e ∉ llm_selected))).take
                  (remaining_slots - llm_selected.length)
            else llm_selected
          (selected_experiences ++ llm_selected).take max_count

/-- Embedding of llm_rank_projects (step1_relevance_filter.py, lines 176-292);
its selection logic is line-for-line that of llm_rank_experiences with
projects in place of experiences. -/
def llm_rank_projects (projects : List Item) (max_count : Nat)
    (resp : RankOutcome) : List Item :=
  if projects.length ≤ max_count then projects
  else
    let high_priority := projects.filter (fun e => e.priority = some "high")
    let medium_priority := projects.filter (fun e => e.priority = some "medium")
    let low_priority := projects.filter (fun e => e.priority = some "low")
    let no_priority := projects.filter (fun e => e.priority = none)
    let selected_projects := high_priority
    if max_count ≤ selected_projects.length then
      selected_projects.take max_count
    else
      let remaining_slots := max_count - selected_projects.length
      let remaining_projects := medium_priority ++ low_priority ++ no_priority
      if remaining_projects.isEmpty then selected_projects
      else if remaining_projects.length ≤ remaining_slots then
        selected_projects ++ remaining_projects
      else
        match resp with
        | .exn =>
          (selected_projects ++ remaining_projects.take remaining_slots).take max_count
        | .parseFail =>
          (selected_projects ++ remaining_projects.take remaining_slots).take max_count
        | .indices selected_indices =>
          let llm_selected := pickValid remaining_projects (selected_indices.take remaining_slots)
          let llm_selected :=
            if llm_selected.length < remaining_slots then
              llm_selected ++
                (remaining_projects.filter (fun e => decide (e ∉ llm_selected))).take
                  (remaining_slots - llm_selected.length)
            else llm_selected
          (selected_projects ++ llm_selected).take max_count

/-- The two rank functions have identical selection logic. -/
theorem rank_projects_eq_experiences (items : List Item) (mc : Nat) (r : RankOutcome) :
    llm_rank_projects items mc r = llm_rank_experiences items mc r := rfl

/-- Outcome of a service call whose raw reply text matters (step 2): either the
reply string, or the call raised. -/
inductive LLMCall (α : Type) where
  | ok : α → LLMCall α
  | exn : LLMCall α
deriving DecidableEq, Repr

/-- Default whitespace stripped by the str.strip and line.strip calls of
step2_llm_optimize.py. -/
def isStripChar (c : Char) : Bool :=
  c = ' ' ∨ c = '\x09' ∨ c = '\x0a' ∨ c = '\x0d' ∨ c = '\x0b' ∨ c = '\x0c'

/-- Python str.strip on a character sequence: drop stripped characters from
both ends. -/
def stripChars (cs : List Char) : List Char :=
  ((cs.dropWhile isStripChar).reverse.dropWhile isStripChar).reverse

/-- Python str.split on a single newline character. -/
def splitNewlines : List Char → List Char → List (List Char)
  | [], cur => [cur.reverse]
  | c :: rest, cur =>
    if c = '\x0a' then cur.reverse :: splitNewlines rest []
    else splitNewlines rest (c :: cur)

/-- Whether a stripped line begins with one of the bullet markers recognized
by optimize_bullet_points (line.startswith on a one-character marker). -/
def startsWithBullet : List Char → Bool
  | [] => false
  | c :: _ => c = '•' ∨ c = '-' ∨ c = '*'

/-- The response-parsing loop of optimize_bullet_points
(step2_llm_optimize.py, lines 109-119): strip the reply, split on newlines,
strip each line, keep lines starting with a bullet marker, drop the marker
(line[1:]), strip again, keep the result when non-empty. -/
def parse_optimized_bullets (content : String) : List String :=
  let optimized_text := stripChars content.data
  (splitNewlines optimized_text []).foldl (fun acc raw =>
    let line := stripChars raw
    if line ≠ [] ∧ startsWithBullet line then
      let bullet := stripChars line.tail
      if bullet ≠ [] then acc ++ [String.mk bullet] else acc
    else acc) []

/-- Embedding of optimize_bullet_points (step2_llm_optimize.py, lines 55-131).
Prompt construction is irrelevant to the returned value; `resp` is the service
call outcome, carrying `response.choices[0].message.content` on success. -/
def optimize_bullet_points (bullets : List String) (resp : LLMCall String) : List String :=
  match resp with
  | .exn => bullets
  | .ok content =>
    let optimized_bullets := parse_optimized_bullets content
    if optimized_bullets.length ≠ bullets.length then bullets
    else optimized_bullets

/-- The three skill categories iterated by llm_filter_skills
(step1_relevance_filter.py, line 300). -/
inductive Cat where
  | languages : Cat
  | technologies : Cat
  | concepts : Cat
deriving DecidableEq, Repr

/-- What the skills source maps a category name to: the key is absent, or its
value is not a list, or it is a list of strings. -/
inductive SkillsField where
  | absent : SkillsField
  | notList : SkillsField
  | list : List String → SkillsField
deriving DecidableEq, Repr

/-- Outcome of the per-category chat-completion call in llm_filter_skills:
service exception, json.loads failure / non-list value, or a JSON list whose
elements are `some s` for a string `s` and `none` for a non-string value. -/
inductive SkillResp where
  | exn : SkillResp
  | parseFail : SkillResp
  | values : List (Option String) → SkillResp
deriving DecidableEq, Repr

/-- The validation comprehension of llm_filter_skills (lines 356-357):
`[skill for skill in selected_skills if skill in skill_list]` (a non-string
JSON element equals no string, hence is dropped). -/
def validSkills (selected_skills : List (Option String)) (skill_list : List String) :
    List String :=
  selected_skills.filterMap (fun v => v.bind (fun s =>
    if s ∈ skill_list then some s else none))

/-- One iteration of the category loop of llm_filter_skills
(step1_relevance_filter.py, lines 304-378), for a category whose value is the
string list `skill_list`. -/
def filter_skill_category (skill_list : List String) (max_per_category : Nat)
    (resp : SkillResp) : List String :=
  if skill_list.length ≤ max_per_category then skill_list
  else
    match resp with
    | .exn => skill_list.take max_per_category
    | .parseFail => skill_list.take max_per_category
    | .values selected_skills =>
      let valid_skills := validSkills selected_skills skill_list
      let valid_skills :=
        if valid_skills.length < max_per_category then
          valid_skills ++
            (skill_list.filter (fun s => decide (s ∉ valid_skills))).take
              (max_per_category - valid_skills.length)
        else valid_skills
      valid_skills.take max_per_category

/-- Embedding of llm_filter_skills (step1_relevance_filter.py, lines 295-383).
The skills source and the per-category service outcomes are indexed by
category; a category that is absent or not list-typed is skipped
(`continue`), producing no entry (`none`). -/
def llm_filter_skills (skills : Cat → SkillsField) (max_per_category : Nat)
    (resps : Cat → SkillResp) : Cat → Option (List String) :=
  fun category =>
    match skills category with
    | .absent => none
    | .notList => none
    | .list skill_list => some (filter_skill_category skill_list max_per_category (resps category))

/-- The value found under the body_paragraphs key of a parsed cover-letter
reply: a JSON list of strings, or a single string (which the code wraps into a
one-element list). -/
inductive BodyVal where
  | str : String → BodyVal
  | list : List String → BodyVal
deriving DecidableEq, Repr

/-- A parsed cover-letter JSON object: each of the five expected keys is
present (`some`) or absent (`none`). -/
structure CLObj where
  intro : Option String
  body_paragraphs : Option BodyVal
  closing : Option String
  company_name : Option String
  recipient_name : Option String
deriving DecidableEq, Repr

/-- Outcome of the cover-letter chat-completion call: service exception,
json.loads failure, or a parsed JSON object. -/
inductive CLResp where
  | exn : CLResp
  | parseFail : CLResp
  | obj : CLObj → CLResp
deriving DecidableEq, Repr

/-- The validated cover-letter value returned to the caller
(step4_generate_cover_letter.py). -/
structure CoverLetterDraft where
  intro : String
  body_paragraphs : List String
  closing : String
  company_name : String
  recipient_name : String
deriving DecidableEq, Repr

/-- An experience entry as read by the cover-letter fallback
(`experiences[0].get("role", "Software Engineer")`): only the optional role
field is inspected. -/
structure CLExperience where
  role : Option String
deriving DecidableEq, Repr

/-- The fallback draft of the `except (JSONDecodeError, ValueError)` branch of
generate_cover_letter_content (lines 168-178), built from the first
experience entry, the technologies skill list and the (already defaulted)
company name. -/
def cl_fallback_parse (experiences : List CLExperience) (technologies : List String)
    (company_name : String) : CoverLetterDraft :=
  { intro := "I am writing to express my strong interest in the position described in your job posting."
    body_paragraphs :=
      [ "With my background in " ++
          (if technologies.isEmpty then "software development"
           else String.intercalate ", " (technologies.take 3)) ++
          ", I am confident I would be a valuable addition to your team."
      , "In my recent role as " ++
          (match experiences with
           | [] => "Software Engineer"
           | e :: _ => e.role.getD "Software Engineer") ++
          ", I have developed skills that directly align with your requirements." ]
    closing := "I would welcome the opportunity to discuss how my experience and enthusiasm can contribute to your team\x27s success."
    company_name := if company_name = "" then "Hiring Manager" else company_name
    recipient_name := "Hiring Manager" }

/-- The fallback draft of the outer `except Exception` branch of
generate_cover_letter_content (lines 180-192). -/
def cl_fallback_exn (company_name : String) : CoverLetterDraft :=
  { intro := "I am writing to express my interest in the position at your company."
    body_paragraphs :=
      [ "My experience and skills align well with the requirements outlined in your job description."
      , "I am excited about the opportunity to contribute to your team and would welcome the chance to discuss my qualifications further." ]
    closing := "Thank you for considering my application. I look forward to hearing from you."
    company_name := if company_name = "" then "Hiring Manager" else company_name
    recipient_name := "Hiring Manager" }

/-- The company-name defaulting of generate_cover_letter_content (lines
82-84): a falsy (absent or empty) company_name becomes "the company" before
the service call. -/
def cl_company_name (company_name_arg : Option String) : String :=
  match company_name_arg with
  | none => "the company"
  | some s => if s = "" then "the company" else s

/-- Embedding of generate_cover_letter_content
(step4_generate_cover_letter.py, lines 56-192). On a parsed reply the code
checks presence of the five required fields in order, raising ValueError
into the parse-failure branch at the first missing one, and wraps a non-list
body_paragraphs value into a one-element list. -/
def generate_cover_letter_content (experiences : List CLExperience)
    (technologies : List String) (company_name_arg : Option String)
    (resp : CLResp) : CoverLetterDraft :=
  let company_name := cl_company_name company_name_arg
  match resp with
  | .exn => cl_fallback_exn company_name
  | .parseFail => cl_fallback_parse experiences technologies company_name
  | .obj o =>
    match o.intro with
    | none => cl_fallback_parse experiences technologies company_name
    | some i =>
      match o.body_paragraphs with
      | none => cl_fallback_parse experiences technologies company_name
      | some b =>
        match o.closing with
        | none => cl_fallback_parse experiences technologies company_name
        | some c =>
          match o.company_name with
          | none => cl_fallback_parse experiences technologies company_name
          | some cname =>
            match o.recipient_name with
            | none => cl_fallback_parse experiences technologies company_name
            | some rn =>
              { intro := i
                body_paragraphs := match b with | .str s => [s] | .list l => l
                closing := c
                company_name := cname
                recipient_name := rn }

/-- Environment of one pipeline run (resume_pipeline.py): whether each stage
subprocess exits 0, and whether an earlier-stage artifact matching the glob
pattern exists on disk for the stages not run in this invocation. -/
structure PipelineEnv where
  run_ok : String → Bool
  step1_artifact : Bool
  step2_artifact : Bool

/-- Stage 4 of main (resume_pipeline.py, lines 269-306): requires a step 2
output (in-run or on disk), else exits 1 without launching the subprocess;
then the final success/failure returns (lines 308-321). The second component
accumulates the stages whose subprocess was actually launched. -/
def pipeline_step4 (steps_to_run : List String) (env : PipelineEnv)
    (attempted : List String) : Nat × List String :=
  if "4" ∈ steps_to_run then
    if "2" ∈ steps_to_run ∨ env.step2_artifact then
      if env.run_ok "4" then (0, attempted ++ ["4"]) else (1, attempted ++ ["4"])
    else (1, attempted)
  else (0, attempted)

/-- Stage 3 of main (resume_pipeline.py, lines 241-267): requires a step 2
output, else exits 1; on subprocess failure exits 1; otherwise continues. -/
def pipeline_step3 (steps_to_run : List String) (env : PipelineEnv)
    (attempted : List String) : Nat × List String :=
  if "3" ∈ steps_to_run then
    if "2" ∈ steps_to_run ∨ env.step2_artifact then
      if env.run_ok "3" then pipeline_step4 steps_to_run env (attempted ++ ["3"])
      else (1, attempted ++ ["3"])
    else (1, attempted)
  else pipeline_step4 steps_to_run env attempted

/-- Stage 2 of main (resume_pipeline.py, lines 203-239): requires a step 1
output (in-run or on disk), else exits 1; on subprocess failure exits 1. -/
def pipeline_step2 (steps_to_run : List String) (env : PipelineEnv)
    (attempted : List String) : Nat × List String :=
  if "2" ∈ steps_to_run then
    if "1" ∈ steps_to_run ∨ env.step1_artifact then
      if env.run_ok "2" then pipeline_step3 steps_to_run env (attempted ++ ["2"])
      else (1, attempted ++ ["2"])
    else (1, attempted)
  else pipeline_step3 steps_to_run env attempted

/-- The stage-execution part of main (resume_pipeline.py, lines 180-321):
stages 1-4 run in order, each early-returning 1 on subprocess failure or
missing precondition artifact; reaching the end returns 0. The result pairs
the exit code with the list of stages whose subprocess was launched. -/
def pipeline_main (steps_to_run : List String) (env : PipelineEnv) : Nat × List String :=
  if "1" ∈ steps_to_run then
    if env.run_ok "1" then pipeline_step2 steps_to_run env ["1"]
    else (1, ["1"])
  else pipeline_step2 steps_to_run env []

/-- Numeric order of a pipeline stage label. -/
def stageNum (s : String) : Nat :=
  if s = "1" then 1 else if s = "2" then 2 else if s = "3" then 3
  else if s = "4" then 4 else 0

/-- The dry-run selection of main (step1_relevance_filter.py, lines 486-488
and 508-510): `filtered = items[:max_count]`, used identically for
experiences and projects. -/
def dry_run_select (items : List Item) (max_count : Nat) : List Item :=
  items.take max_count

/-- The dry-run skill selection of main (step1_relevance_filter.py, lines
533-538): for each of the three categories present with a list value,
`filtered_skills[category] = skills[category][:max_skills_per_category]`;
other categories get no entry. -/
def dry_run_skills (skills : Cat → SkillsField) (max_per_category : Nat) :
    Cat → Option (List String) :=
  fun category =>
    match skills category with
    | .absent => none
    | .notList => none
    | .list skill_list => some (skill_list.take max_per_category)

/-- The high-priority sublist computed by the selectors (lines 62-63). -/
def highOf (items : List Item) : List Item :=
  items.filter (fun e => e.priority = some "high")

/-- The ranking pool computed by the selectors (line 78):
medium, then low, then no-priority items. -/
def poolOf (items : List Item) : List Item :=
  items.filter (fun e => e.priority = some "medium") ++
    items.filter (fun e => e.priority = some "low") ++
    items.filter (fun e => e.priority = none)

/-- Elements of a list prefix that fits under the cut survive a take. -/
theorem mem_take_append_left {α : Type} {e : α} {l1 l2 : List α} {n : Nat}
    (h : l1.length ≤ n) (he : e ∈ l1) : e ∈ (l1 ++ l2).take n := by
  rw [List.take_append_eq_append_take, List.take_of_length_le h]
  exact List.mem_append_left _ he

/-- Every non-short-circuit, non-truncation branch of llm_rank_experiences
returns the high-priority items followed by some tail, cut at max_count. -/
theorem rank_experiences_shape (items : List Item) (mc : Nat) (resp : RankOutcome)
    (h1 : ¬ items.length ≤ mc) (h2 : ¬ mc ≤ (highOf items).length) :
    ∃ rest, llm_rank_experiences items mc resp = ((highOf items) ++ rest).take mc := by
  have hlen : (highOf items).length ≤ mc := le_of_not_le h2
  simp only [highOf] at h2 hlen ⊢
  cases resp <;>
    simp only [llm_rank_experiences, if_neg h1, if_neg h2] <;>
    split_ifs <;>
    first
      | exact ⟨_, rfl⟩
      | (refine ⟨[], ?_⟩
         rw [List.append_nil, List.take_of_length_le hlen]
         done)
      | (refine ⟨List.filter (fun e => decide (e.priority = some "medium")) items ++
            List.filter (fun e => decide (e.priority = some "low")) items ++
            List.filter (fun e => decide (e.priority = none)) items, ?_⟩
         rw [List.take_of_length_le (by simp only [List.length_append] at *; omega)]
         done)

/-- Claim C6: when the collection already fits in the slot budget, both
selectors return the input list unchanged, for every service outcome (in the
code the service is not even called on this path). -/
theorem claim_C6_short_circuit (items : List Item) (max_count : Nat)
    (resp : RankOutcome) (h : items.length ≤ max_count) :
    llm_rank_experiences items max_count resp = items ∧
    llm_rank_projects items max_count resp = items := by
  constructor
  · rw [llm_rank_experiences, if_pos h]
  · rw [llm_rank_projects, if_pos h]

/-- Witness for claim C6 at a concrete input. -/
theorem claim_C6_witness :
    llm_rank_experiences [⟨0, some "high"⟩, ⟨1, none⟩] 10 RankOutcome.exn =
      [⟨0, some "high"⟩, ⟨1, none⟩] ∧
    llm_rank_projects [⟨0, some "high"⟩, ⟨1, none⟩] 10 RankOutcome.exn =
      [⟨0, some "high"⟩, ⟨1, none⟩] :=
  claim_C6_short_circuit [⟨0, some "high"⟩, ⟨1, none⟩] 10 RankOutcome.exn (by decide)

/-- Claim C2: optimize_bullet_points always returns exactly as many bullets
as it was given; whenever the parsed reply has a different bullet count, and
whenever the service call raises, the original list is returned unchanged. -/
theorem claim_C2_shape_preservation (bullets : List String) (resp : LLMCall String) :
    (optimize_bullet_points bullets resp).length = bullets.length ∧
    (∀ content, resp = .ok content →
      (parse_optimized_bullets content).length ≠ bullets.length →
      optimize_bullet_points bullets resp = bullets) ∧
    (resp = .exn → optimize_bullet_points bullets resp = bullets) := by
  refine ⟨?_, ?_, ?_⟩
  · cases resp with
    | exn => rfl
    | ok content =>
      rw [optimize_bullet_points]
      by_cases h : (parse_optimized_bullets content).length = bullets.length
      · simp [h]
      · simp [h]
  · intro content hc h
    subst hc
    rw [optimize_bullet_points]
    simp [h]
  · intro h
    subst h
    rfl

/-- Witness for claim C2 at a concrete input: two bullets in, a reply that
parses to a single bullet, original list returned. -/
theorem claim_C2_witness :
    (optimize_bullet_points ["a", "b"] (LLMCall.ok "• only one line")).length = 2 ∧
    optimize_bullet_points ["a", "b"] (LLMCall.ok "• only one line") = ["a", "b"] := by
  have h := claim_C2_shape_preservation ["a", "b"] (LLMCall.ok "• only one line")
  exact ⟨h.1, h.2.1 "• only one line" rfl (by decide)⟩

/-- Claim C10: the dry-run path selects the plain prefix of each collection,
ignoring priority; concretely, a high-priority item sitting after position
max_count is dropped by the dry run even though the non-dry-run fallback path
keeps it. -/
theorem claim_C10_dry_run_prefix :
    (∃ (items : List Item) (max_count : Nat) (e : Item),
      max_count < items.length ∧ e ∈ items ∧ e.priority = some "high" ∧
      e ∉ dry_run_select items max_count ∧
      e ∈ llm_rank_experiences items max_count RankOutcome.exn ∧
      e ∈ llm_rank_projects items max_count RankOutcome.exn) ∧
    (∀ items max_count, dry_run_select items max_count = items.take max_count) ∧
    (∀ (skills : Cat → SkillsField) (mp : Nat) (c : Cat) (l : List String),
      skills c = .list l → dry_run_skills skills mp c = some (l.take mp)) := by
  refine ⟨⟨[⟨0, some "medium"⟩, ⟨1, some "medium"⟩, ⟨2, some "high"⟩], 2,
    ⟨2, some "high"⟩, ?_⟩, fun _ _ => rfl, fun skills mp c l hc => ?_⟩
  · exact ⟨by decide, by decide, by decide, by decide, by decide, by decide⟩
  · rw [dry_run_skills, hc]

/-- Witness for claim C10, instantiating its universally quantified parts at
concrete inputs. -/
theorem claim_C10_witness :
    dry_run_select [⟨0, some "high"⟩, ⟨1, none⟩] 1 = [⟨0, some "high"⟩] ∧
    dry_run_skills (fun _ => SkillsField.list ["A", "B", "C"]) 2 Cat.languages =
      some ["A", "B"] := by
  have h := claim_C10_dry_run_prefix
  exact ⟨h.2.1 [⟨0, some "high"⟩, ⟨1, none⟩] 1,
    h.2.2 (fun _ => SkillsField.list ["A", "B", "C"]) 2 Cat.languages ["A", "B", "C"] rfl⟩

/-- Claim C3: whenever the ranking step is reached (more items than slots,
high-priority items do not fill the budget, pool larger than the remaining
slots) and the service call raises or its reply fails to parse as a JSON
list, both selectors return the high-priority items followed by the first
remaining_slots pool items in pool order; being total functions of the
outcome value, they propagate no exception. -/
theorem claim_C3_fallback_truncation (items : List Item) (max_count : Nat)
    (resp : RankOutcome)
    (h1 : max_count < items.length)
    (h2 : (highOf items).length < max_count)
    (h3 : max_count - (highOf items).length < (poolOf items).length)
    (hresp : resp = RankOutcome.exn ∨ resp = RankOutcome.parseFail) :
    llm_rank_experiences items max_count resp =
      highOf items ++ (poolOf items).take (max_count - (highOf items).length) ∧
    llm_rank_projects items max_count resp =
      highOf items ++ (poolOf items).take (max_count - (highOf items).length) := by
  rw [rank_projects_eq_experiences, and_self]
  have h1' : ¬ items.length ≤ max_count := not_le.mpr h1
  have h2' : ¬ max_count ≤ (highOf items).length := not_le.mpr h2
  have hpool : ¬ (poolOf items).isEmpty = true := by
    rw [List.isEmpty_iff]
    intro hnil
    rw [hnil] at h3
    simp at h3
  have hfit : ¬ (poolOf items).length ≤ max_count - (highOf items).length :=
    not_le.mpr h3
  simp only [highOf, poolOf] at h2' hpool hfit ⊢
  rcases hresp with hr | hr <;> subst hr <;>
    simp only [llm_rank_experiences, if_neg h1', if_neg h2', if_neg hpool, if_neg hfit] <;>
    rw [List.take_of_length_le] <;>
    simp only [List.length_append, List.length_take] <;>
    omega

/-- Witness for claim C3 at a concrete input: one high item, budget 2, three
pool items, service exception. -/
theorem claim_C3_witness :
    llm_rank_experiences
      [⟨0, some "medium"⟩, ⟨1, some "high"⟩, ⟨2, some "low"⟩, ⟨3, none⟩] 2
      RankOutcome.exn =
      [⟨1, some "high"⟩, ⟨0, some "medium"⟩] ∧
    llm_rank_projects
      [⟨0, some "medium"⟩, ⟨1, some "high"⟩, ⟨2, some "low"⟩, ⟨3, none⟩] 2
      RankOutcome.exn =
      [⟨1, some "high"⟩, ⟨0, some "medium"⟩] := by
  have h := claim_C3_fallback_truncation
    [⟨0, some "medium"⟩, ⟨1, some "high"⟩, ⟨2, some "low"⟩, ⟨3, none⟩] 2
    RankOutcome.exn (by decide) (by decide) (by decide) (Or.inl rfl)
  rw [h.1, h.2, and_self]
  decide

/-- Claim C1: past the short-circuit, every high-priority item appears in the
selection; and when the high-priority items alone overflow the budget the
selection is exactly the first max_count of them in input order, with no
ranking across them (the outcome value is arbitrary). Both selectors. -/
theorem claim_C1_high_priority_invariant (items : List Item) (max_count : Nat)
    (resp : RankOutcome) (h : max_count < items.length) :
    ((highOf items).length ≤ max_count →
      ∀ e ∈ items, e.priority = some "high" →
        e ∈ llm_rank_experiences items max_count resp ∧
        e ∈ llm_rank_projects items max_count resp) ∧
    (max_count < (highOf items).length →
      llm_rank_experiences items max_count resp = (highOf items).take max_count ∧
      llm_rank_projects items max_count resp = (highOf items).take max_count) := by
  have h1 : ¬ items.length ≤ max_count := not_le.mpr h
  constructor
  · intro hle e he hp
    rw [rank_projects_eq_experiences, and_self]
    have hmem : e ∈ highOf items := by
      rw [highOf, List.mem_filter]
      exact ⟨he, by simp [hp]⟩
    rcases Nat.lt_or_ge (highOf items).length max_count with hlt | hge
    · obtain ⟨rest, hshape⟩ :=
        rank_experiences_shape items max_count resp h1 (not_le.mpr hlt)
      rw [hshape]
      exact mem_take_append_left (le_of_lt hlt) hmem
    · have heq : max_count ≤ (highOf items).length := hge
      have := hle
      have hlen : (highOf items).length = max_count := le_antisymm hle heq
      rw [llm_rank_experiences, if_neg h1]
      simp only [highOf] at heq hlen
      rw [if_pos heq, List.take_of_length_le (le_of_eq hlen)]
      simpa [highOf] using hmem
  · intro hgt
    rw [rank_projects_eq_experiences, and_self]
    have h2 : max_count ≤ (highOf items).length := le_of_lt hgt
    rw [llm_rank_experiences, if_neg h1]
    simp only [highOf] at h2 ⊢
    rw [if_pos h2]

/-- Witness for claim C1: four items with two high ones, budget 3; and budget
1, where only the first high item survives. -/
theorem claim_C1_witness :
    (⟨1, some "high"⟩ : Item) ∈
      llm_rank_experiences
        [⟨0, none⟩, ⟨1, some "high"⟩, ⟨2, some "medium"⟩, ⟨3, some "high"⟩] 3
        RankOutcome.parseFail ∧
    llm_rank_experiences
      [⟨0, none⟩, ⟨1, some "high"⟩, ⟨2, some "medium"⟩, ⟨3, some "high"⟩] 1
      RankOutcome.parseFail = [⟨1, some "high"⟩] := by
  constructor
  · exact ((claim_C1_high_priority_invariant
      [⟨0, none⟩, ⟨1, some "high"⟩, ⟨2, some "medium"⟩, ⟨3, some "high"⟩] 3
      RankOutcome.parseFail (by decide)).1 (by decide)
      ⟨1, some "high"⟩ (by decide) (by decide)).1
  · have := ((claim_C1_high_priority_invariant
      [⟨0, none⟩, ⟨1, some "high"⟩, ⟨2, some "medium"⟩, ⟨3, some "high"⟩] 1
      RankOutcome.parseFail (by decide)).2 (by decide)).1
    rw [this]
    decide

/-- Modelled from the words of claim C4: validate EVERY element of the parsed
list (drop non-integers and out-of-range indices), map the survivors to pool
items in the order given, then pad with not-yet-selected pool items in pool
order until remaining_slots items are selected or the pool is exhausted. The
code instead validates only the first remaining_slots elements of the list
(`selected_indices[:remaining_slots]`), so this definition and the code
disagree when an invalid entry sits among the first remaining_slots elements
and a valid one sits beyond them. -/
def claimed_index_selection (pool : List Item) (idxs : List (Option Int))
    (remaining_slots : Nat) : List Item :=
  let survivors := pickValid pool idxs
  if survivors.length < remaining_slots then
    survivors ++
      (pool.filter (fun e => decide (e ∉ survivors))).take
        (remaining_slots - survivors.length)
  else survivors

/-- Length of the validated index list is bounded by the index count. -/
theorem pickValid_length_le (pool : List Item) (idxs : List (Option Int)) :
    (pickValid pool idxs).length ≤ idxs.length :=
  List.length_filterMap_le _ _

/-- Counterexample to claim C4 as stated: pool of three unset-priority items,
budget 2 (so remaining_slots = 2), reply [99, 2, 3]. The claim reads: drop
the invalid 99, keep survivors [2, 3], yielding items 2 and 3. The code
truncates to the first two entries [99, 2] before validating, keeps only
item 2, and pads with item 1. -/
theorem claim_C4_counterexample :
    llm_rank_experiences [⟨0, none⟩, ⟨1, none⟩, ⟨2, none⟩] 2
      (RankOutcome.indices [some 99, some 2, some 3]) = [⟨1, none⟩, ⟨0, none⟩] ∧
    highOf [⟨0, none⟩, ⟨1, none⟩, ⟨2, none⟩] ++
      claimed_index_selection (poolOf [⟨0, none⟩, ⟨1, none⟩, ⟨2, none⟩])
        [some 99, some 2, some 3] 2 = [⟨1, none⟩, ⟨2, none⟩] ∧
    llm_rank_experiences [⟨0, none⟩, ⟨1, none⟩, ⟨2, none⟩] 2
      (RankOutcome.indices [some 99, some 2, some 3]) ≠
      highOf [⟨0, none⟩, ⟨1, none⟩, ⟨2, none⟩] ++
        claimed_index_selection (poolOf [⟨0, none⟩, ⟨1, none⟩, ⟨2, none⟩])
          [some 99, some 2, some 3] 2 := by
  refine ⟨by decide, by decide, by decide⟩

/-- Claim C4 as amended: the code considers only the first remaining_slots
elements of the parsed list; among those, every element that is not an
integer in [1, len(pool)] is dropped, the surviving indices are mapped to
pool items in the order given, and if fewer than remaining_slots items were
recovered, pool items not already selected are appended in original pool
order until remaining_slots items are selected or the pool is exhausted. -/
theorem claim_C4_amended_validation (items : List Item) (max_count : Nat)
    (idxs : List (Option Int))
    (h1 : max_count < items.length)
    (h2 : (highOf items).length < max_count)
    (h3 : max_count - (highOf items).length < (poolOf items).length) :
    llm_rank_experiences items max_count (RankOutcome.indices idxs) =
      highOf items ++
        claimed_index_selection (poolOf items)
          (idxs.take (max_count - (highOf items).length))
          (max_count - (highOf items).length) := by
  have h1' : ¬ items.length ≤ max_count := not_le.mpr h1
  have h2' : ¬ max_count ≤ (highOf items).length := not_le.mpr h2
  have hpool : ¬ (poolOf items).isEmpty = true := by
    rw [List.isEmpty_iff]
    intro hnil
    rw [hnil] at h3
    simp at h3
  have hfit : ¬ (poolOf items).length ≤ max_count - (highOf items).length :=
    not_le.mpr h3
  have hpv : (pickValid (poolOf items)
      (idxs.take (max_count - (highOf items).length))).length ≤
      max_count - (highOf items).length := by
    refine le_trans (pickValid_length_le _ _) ?_
    simp [List.length_take]
  simp only [highOf, poolOf] at h2' hpool hfit hpv ⊢
  simp only [llm_rank_experiences, if_neg h1', if_neg h2', if_neg hpool, if_neg hfit,
    claimed_index_selection]
  split_ifs with hlt
  · rw [List.take_of_length_le]
    simp only [List.length_append, List.length_take]
    omega
  · rw [List.take_of_length_le]
    simp only [List.length_append]
    omega

/-- Witness for the amended claim C4: budget 2, three unset items, reply
[99, 2, 3]; the code keeps item 2 of the pool and pads with item 1. -/
theorem claim_C4_witness :
    llm_rank_experiences [⟨0, none⟩, ⟨1, none⟩, ⟨2, none⟩] 2
      (RankOutcome.indices [some 99, some 2, some 3]) =
      highOf [⟨0, none⟩, ⟨1, none⟩, ⟨2, none⟩] ++
        claimed_index_selection (poolOf [⟨0, none⟩, ⟨1, none⟩, ⟨2, none⟩])
          [some 99, some 2] 2 := by
  have h := claim_C4_amended_validation [⟨0, none⟩, ⟨1, none⟩, ⟨2, none⟩] 2
    [some 99, some 2, some 3] (by decide) (by decide) (by decide)
  rw [h]
  decide

/-- A priority field that the selector partition recognizes: absent, or one
of the three documented labels. -/
def LegalPriorities (items : List Item) : Prop :=
  ∀ e ∈ items, e.priority = none ∨ e.priority = some "high" ∨
    e.priority = some "medium" ∨ e.priority = some "low"

/-- Under legal priorities the four filters partition the items. -/
theorem filter_partition_length : ∀ (items : List Item), LegalPriorities items →
    (highOf items).length + (poolOf items).length = items.length := by
  intro items
  induction items with
  | nil => intro _; simp [highOf, poolOf]
  | cons a l ih =>
    intro h
    have ha := h a (List.mem_cons_self a l)
    have ih' := ih (fun e he => h e (List.mem_cons_of_mem a he))
    rcases ha with ha | ha | ha | ha <;>
      simp [highOf, poolOf, List.filter_cons, ha] at ih' ⊢ <;> omega

/-- The ranking pool of a duplicate-free collection is duplicate-free. -/
theorem pool_nodup (items : List Item) (h : items.Nodup) : (poolOf items).Nodup := by
  have hm := h.filter (fun e => decide (e.priority = some "medium"))
  have hlo := h.filter (fun e => decide (e.priority = some "low"))
  have hn := h.filter (fun e => decide (e.priority = none))
  refine (hm.append hlo ?_).append hn ?_
  · intro e hem helo
    rw [List.mem_filter] at hem helo
    have h1 := of_decide_eq_true hem.2
    have h2 := of_decide_eq_true helo.2
    rw [h1] at h2
    simp at h2
  · intro e hem hen
    rw [List.mem_append, List.mem_filter, List.mem_filter] at hem
    rw [List.mem_filter] at hen
    have h2 := of_decide_eq_true hen.2
    rcases hem with hm' | hl'
    · have h1 := of_decide_eq_true hm'.2
      rw [h1] at h2
      simp at h2
    · have h1 := of_decide_eq_true hl'.2
      rw [h1] at h2
      simp at h2

/-- In a duplicate-free pool, at most sel.length items belong to sel. -/
theorem filter_mem_length_le (pool sel : List Item) (h : pool.Nodup) :
    (pool.filter (fun e => decide (e ∈ sel))).length ≤ sel.length := by
  refine List.Subperm.length_le ?_
  refine List.Nodup.subperm (h.filter _) ?_
  intro e he
  exact of_decide_eq_true (List.mem_filter.mp he).2

/-- Complementary membership filters split a pool. -/
theorem length_filter_mem_add_not_mem (pool sel : List Item) :
    (pool.filter (fun e => decide (e ∈ sel))).length +
      (pool.filter (fun e => decide (e ∉ sel))).length = pool.length := by
  induction pool with
  | nil => simp
  | cons a l ih =>
    simp only [List.filter_cons]
    by_cases ha : a ∈ sel
    · rw [if_pos (by simp [ha]), if_neg (by simp [ha])]
      simp only [List.length_cons]
      omega
    · rw [if_neg (by simp [ha]), if_pos (by simp [ha])]
      simp only [List.length_cons]
      omega

/-- The validate-then-pad selection fills the slots exactly when the pool is
duplicate-free and large enough. -/
theorem padded_selection_length (pool sel : List Item) (slots : Nat)
    (hnd : pool.Nodup) (hsel : sel.length ≤ slots) (hlen : slots ≤ pool.length) :
    (if sel.length < slots then
        sel ++ (pool.filter (fun e => decide (e ∉ sel))).take (slots - sel.length)
      else sel).length = slots := by
  split_ifs with hlt
  · have hsum := length_filter_mem_add_not_mem pool sel
    have hsub := filter_mem_length_le pool sel hnd
    simp only [List.length_append, List.length_take]
    omega
  · omega

/-- Counterexample to claim C5 as stated: the selections can come up short of
max_count even though len(items) ≥ max_count. Left: five items whose
priority value "urgent" matches none of the four partition filters, so
nothing is selected at all. Right: four value-equal duplicates in the pool
make the padding comprehension discard every copy of an already-selected
item, leaving only two of the three slots filled. -/
theorem claim_C5_counterexample :
    (3 ≤ ([⟨0, some "urgent"⟩, ⟨1, some "urgent"⟩, ⟨2, some "urgent"⟩,
            ⟨3, some "urgent"⟩, ⟨4, some "urgent"⟩] : List Item).length ∧
      (llm_rank_experiences
        [⟨0, some "urgent"⟩, ⟨1, some "urgent"⟩, ⟨2, some "urgent"⟩,
          ⟨3, some "urgent"⟩, ⟨4, some "urgent"⟩] 3 RankOutcome.exn).length ≠ 3) ∧
    (3 ≤ ([⟨0, none⟩, ⟨0, none⟩, ⟨0, none⟩, ⟨1, none⟩] : List Item).length ∧
      (llm_rank_experiences [⟨0, none⟩, ⟨0, none⟩, ⟨0, none⟩, ⟨1, none⟩] 3
        (RankOutcome.indices [some 1])).length ≠ 3) := by
  refine ⟨⟨by decide, by decide⟩, ⟨by decide, by decide⟩⟩

/-- Claim C5 as amended: the selection never exceeds max_count, for every
collection and service outcome; and it reaches exactly max_count whenever
len(items) ≥ max_count, provided every priority field is absent or one of
high/medium/low and the items are pairwise distinct. Both selectors. -/
theorem claim_C5_amended_slot_bound (items : List Item) (max_count : Nat)
    (resp : RankOutcome) :
    ((llm_rank_experiences items max_count resp).length ≤ max_count ∧
      (llm_rank_projects items max_count resp).length ≤ max_count) ∧
    (LegalPriorities items → items.Nodup → max_count ≤ items.length →
      (llm_rank_experiences items max_count resp).length = max_count ∧
      (llm_rank_projects items max_count resp).length = max_count) := by
  constructor
  · rw [rank_projects_eq_experiences, and_self]
    by_cases hsc : items.length ≤ max_count
    · rw [llm_rank_experiences, if_pos hsc]
      exact hsc
    · by_cases hh : max_count ≤ (highOf items).length
      · have hh' := hh
        simp only [highOf] at hh'
        rw [llm_rank_experiences, if_neg hsc, if_pos hh']
        rw [List.length_take]
        omega
      · obtain ⟨rest, hr⟩ := rank_experiences_shape items max_count resp hsc hh
        rw [hr, List.length_take]
        omega
  · intro hleg hnd hmc
    rw [rank_projects_eq_experiences, and_self]
    have hpart := filter_partition_length items hleg
    by_cases hsc : items.length ≤ max_count
    · rw [llm_rank_experiences, if_pos hsc]
      omega
    · by_cases hh : max_count ≤ (highOf items).length
      · have hh' := hh
        simp only [highOf] at hh'
        rw [llm_rank_experiences, if_neg hsc, if_pos hh']
        rw [List.length_take]
        simp only [highOf] at hh
        omega
      · have hfitlen : max_count - (highOf items).length < (poolOf items).length := by
          omega
        have hpool : ¬ (poolOf items).isEmpty = true := by
          rw [List.isEmpty_iff]
          intro hnil
          rw [hnil] at hfitlen
          simp at hfitlen
        have hfit : ¬ (poolOf items).length ≤ max_count - (highOf items).length :=
          not_le.mpr hfitlen
        have hh2 : ¬ max_count ≤ (highOf items).length := hh
        have hnp := pool_nodup items hnd
        have hpart2 := hpart
        have hfit2 := hfitlen
        simp only [highOf, poolOf, List.length_append] at hpart2 hfit2
        have hh3 := hh
        simp only [highOf] at hh3
        cases resp with
        | exn =>
          simp only [highOf, poolOf] at hh2 hpool hfit ⊢
          simp only [llm_rank_experiences, if_neg hsc, if_neg hh2, if_neg hpool, if_neg hfit]
          simp only [List.length_take, List.length_append]
          omega
        | parseFail =>
          simp only [highOf, poolOf] at hh2 hpool hfit ⊢
          simp only [llm_rank_experiences, if_neg hsc, if_neg hh2, if_neg hpool, if_neg hfit]
          simp only [List.length_take, List.length_append]
          omega
        | indices idxs =>
          have hpv : (pickValid (poolOf items)
              (idxs.take (max_count - (highOf items).length))).length ≤
              max_count - (highOf items).length := by
            refine le_trans (pickValid_length_le _ _) ?_
            rw [List.length_take]
            omega
          have hpad := padded_selection_length (poolOf items)
            (pickValid (poolOf items) (idxs.take (max_count - (highOf items).length)))
            (max_count - (highOf items).length) hnp hpv (le_of_lt hfitlen)
          simp only [highOf, poolOf] at hh2 hpool hfit hpad ⊢
          simp only [llm_rank_experiences, if_neg hsc, if_neg hh2, if_neg hpool, if_neg hfit]
          rw [List.length_take, List.length_append, hpad]
          omega

/-- Witness for the amended claim C5: six distinct, legally labelled items,
budget 4, adversarial reply: exactly 4 items are selected. -/
theorem claim_C5_witness :
    (llm_rank_experiences
      [⟨0, some "high"⟩, ⟨1, some "medium"⟩, ⟨2, some "low"⟩, ⟨3, none⟩,
        ⟨4, some "medium"⟩, ⟨5, none⟩] 4
      (RankOutcome.indices [some 7, none, some 2, some 2])).length = 4 ∧
    (llm_rank_projects
      [⟨0, some "high"⟩, ⟨1, some "medium"⟩, ⟨2, some "low"⟩, ⟨3, none⟩,
        ⟨4, some "medium"⟩, ⟨5, none⟩] 4
      (RankOutcome.indices [some 7, none, some 2, some 2])).length = 4 :=
  (claim_C5_amended_slot_bound
    [⟨0, some "high"⟩, ⟨1, some "medium"⟩, ⟨2, some "low"⟩, ⟨3, none⟩,
      ⟨4, some "medium"⟩, ⟨5, none⟩] 4
    (RankOutcome.indices [some 7, none, some 2, some 2])).2
    (by unfold LegalPriorities; decide) (by decide) (by decide)

/-- Every validated skill is a verbatim member of the original list. -/
theorem validSkills_subset (vals : List (Option String)) (l : List String)
    (s : String) (hs : s ∈ validSkills vals l) : s ∈ l := by
  rw [validSkills, List.mem_filterMap] at hs
  obtain ⟨v, _, hv⟩ := hs
  cases v with
  | none => cases hv
  | some t =>
    rw [Option.some_bind] at hv
    by_cases ht : t ∈ l
    · rw [if_pos ht] at hv
      cases hv
      exact ht
    · rw [if_neg ht] at hv
      cases hv

/-- Every value the per-category filter returns comes from the original
category list. -/
theorem filter_skill_category_mem (l : List String) (mp : Nat) (r : SkillResp)
    (s : String) (hs : s ∈ filter_skill_category l mp r) : s ∈ l := by
  rw [filter_skill_category.eq_def] at hs
  by_cases hsc : l.length ≤ mp
  · rw [if_pos hsc] at hs
    exact hs
  · rw [if_neg hsc] at hs
    cases r with
    | exn => exact List.mem_of_mem_take hs
    | parseFail => exact List.mem_of_mem_take hs
    | values vals =>
      dsimp only at hs
      have hs' := List.mem_of_mem_take hs
      by_cases hlt : (validSkills vals l).length < mp
      · rw [if_pos hlt] at hs'
        rcases List.mem_append.mp hs' with h | h
        · exact validSkills_subset vals l s h
        · exact (List.mem_filter.mp (List.mem_of_mem_take h)).1
      · rw [if_neg hlt] at hs'
        exact validSkills_subset vals l s hs'

/-- The per-category filter never exceeds the per-category budget. -/
theorem filter_skill_category_length (l : List String) (mp : Nat) (r : SkillResp) :
    (filter_skill_category l mp r).length ≤ mp := by
  rw [filter_skill_category.eq_def]
  by_cases hsc : l.length ≤ mp
  · rw [if_pos hsc]
    exact hsc
  · rw [if_neg hsc]
    cases r with
    | exn => rw [List.length_take]; omega
    | parseFail => rw [List.length_take]; omega
    | values vals => dsimp only; rw [List.length_take]; omega

/-- Claim C7: every value in every category returned by llm_filter_skills is
a verbatim member of that category in the source; each category holds at most
max_per_category values; categories absent from the source or not list-typed
produce no entry; and a short validated response is padded with the remaining
original skills in original order. -/
theorem claim_C7_skill_validity (skills : Cat → SkillsField) (mp : Nat)
    (resps : Cat → SkillResp) (c : Cat) :
    (∀ out, llm_filter_skills skills mp resps c = some out →
      (∀ s ∈ out, ∃ l, skills c = SkillsField.list l ∧ s ∈ l) ∧ out.length ≤ mp) ∧
    (skills c = SkillsField.absent → llm_filter_skills skills mp resps c = none) ∧
    (skills c = SkillsField.notList → llm_filter_skills skills mp resps c = none) ∧
    (∀ l vals, skills c = SkillsField.list l → resps c = SkillResp.values vals →
      mp < l.length → (validSkills vals l).length < mp →
      llm_filter_skills skills mp resps c =
        some (validSkills vals l ++
          (l.filter (fun s => decide (s ∉ validSkills vals l))).take
            (mp - (validSkills vals l).length))) := by
  refine ⟨?_, ?_, ?_, ?_⟩
  · intro out hout
    cases hsk : skills c with
    | absent => rw [llm_filter_skills, hsk] at hout; cases hout
    | notList => rw [llm_filter_skills, hsk] at hout; cases hout
    | list l =>
      rw [llm_filter_skills, hsk] at hout
      have hout' := Option.some.inj hout
      subst hout'
      exact ⟨fun s hs => ⟨l, rfl, filter_skill_category_mem l mp (resps c) s hs⟩,
        filter_skill_category_length l mp (resps c)⟩
  · intro h
    rw [llm_filter_skills, h]
  · intro h
    rw [llm_filter_skills, h]
  · intro l vals hsk hr hmp hlen
    rw [llm_filter_skills, hsk, hr]
    dsimp only
    rw [filter_skill_category.eq_def, if_neg (not_le.mpr hmp)]
    dsimp only
    rw [if_pos hlen]
    rw [List.take_of_length_le]
    simp only [List.length_append, List.length_take]
    omega

/-- Witness for claim C7 at concrete inputs: three languages, budget 2, a
reply naming one real skill and one hallucinated one; an absent and a
non-list category. -/
theorem claim_C7_witness :
    llm_filter_skills
      (fun c => match c with
        | Cat.languages => SkillsField.list ["A", "B", "C"]
        | Cat.technologies => SkillsField.absent
        | Cat.concepts => SkillsField.notList) 2
      (fun _ => SkillResp.values [some "C", some "Z", none]) Cat.languages =
      some ["C", "A"] ∧
    llm_filter_skills
      (fun c => match c with
        | Cat.languages => SkillsField.list ["A", "B", "C"]
        | Cat.technologies => SkillsField.absent
        | Cat.concepts => SkillsField.notList) 2
      (fun _ => SkillResp.values [some "C", some "Z", none]) Cat.technologies =
      none ∧
    llm_filter_skills
      (fun c => match c with
        | Cat.languages => SkillsField.list ["A", "B", "C"]
        | Cat.technologies => SkillsField.absent
        | Cat.concepts => SkillsField.notList) 2
      (fun _ => SkillResp.values [some "C", some "Z", none]) Cat.concepts =
      none := by
  refine ⟨?_, ?_, ?_⟩
  · have h := (claim_C7_skill_validity
      (fun c => match c with
        | Cat.languages => SkillsField.list ["A", "B", "C"]
        | Cat.technologies => SkillsField.absent
        | Cat.concepts => SkillsField.notList) 2
      (fun _ => SkillResp.values [some "C", some "Z", none]) Cat.languages).2.2.2
      ["A", "B", "C"] [some "C", some "Z", none] rfl rfl (by decide) (by decide)
    rw [h]
    decide
  · exact (claim_C7_skill_validity
      (fun c => match c with
        | Cat.languages => SkillsField.list ["A", "B", "C"]
        | Cat.technologies => SkillsField.absent
        | Cat.concepts => SkillsField.notList) 2
      (fun _ => SkillResp.values [some "C", some "Z", none]) Cat.technologies).2.1 rfl
  · exact (claim_C7_skill_validity
      (fun c => match c with
        | Cat.languages => SkillsField.list ["A", "B", "C"]
        | Cat.technologies => SkillsField.absent
        | Cat.concepts => SkillsField.notList) 2
      (fun _ => SkillResp.values [some "C", some "Z", none]) Cat.concepts).2.2.1 rfl

/-- A string with a non-empty prefix is non-empty. -/
theorem str_append_ne_empty (a b : String) (h : 0 < a.length) : a ++ b ≠ "" := by
  intro hc
  have hlen := congrArg String.length hc
  rw [String.length_append] at hlen
  have hz : ("" : String).length = 0 := rfl
  rw [hz] at hlen
  omega

/-- All five fields of the parse-failure fallback draft are non-empty. -/
theorem cl_fallback_parse_fields (exps : List CLExperience) (techs : List String)
    (cname : String) :
    (cl_fallback_parse exps techs cname).intro ≠ "" ∧
    (cl_fallback_parse exps techs cname).body_paragraphs ≠ [] ∧
    (∀ p ∈ (cl_fallback_parse exps techs cname).body_paragraphs, p ≠ "") ∧
    (cl_fallback_parse exps techs cname).closing ≠ "" ∧
    (cl_fallback_parse exps techs cname).company_name ≠ "" ∧
    (cl_fallback_parse exps techs cname).recipient_name ≠ "" := by
  refine ⟨by simp [cl_fallback_parse], by simp [cl_fallback_parse], ?_,
    by simp [cl_fallback_parse], ?_, by simp [cl_fallback_parse]⟩
  · intro p hp
    simp only [cl_fallback_parse, List.mem_cons, List.not_mem_nil, or_false] at hp
    rcases hp with h | h <;> subst h
    · refine str_append_ne_empty _ _ ?_
      rw [String.length_append]
      have hpos : 0 < ("With my background in " : String).length := by decide
      omega
    · refine str_append_ne_empty _ _ ?_
      rw [String.length_append]
      have hpos : 0 < ("In my recent role as " : String).length := by decide
      omega
  · simp only [cl_fallback_parse]
    split_ifs with hc
    · simp
    · exact hc

/-- All five fields of the exception fallback draft are non-empty. -/
theorem cl_fallback_exn_fields (cname : String) :
    (cl_fallback_exn cname).intro ≠ "" ∧
    (cl_fallback_exn cname).body_paragraphs ≠ [] ∧
    (∀ p ∈ (cl_fallback_exn cname).body_paragraphs, p ≠ "") ∧
    (cl_fallback_exn cname).closing ≠ "" ∧
    (cl_fallback_exn cname).company_name ≠ "" ∧
    (cl_fallback_exn cname).recipient_name ≠ "" := by
  refine ⟨by simp [cl_fallback_exn], by simp [cl_fallback_exn],
    by simp [cl_fallback_exn], by simp [cl_fallback_exn], ?_,
    by simp [cl_fallback_exn]⟩
  simp only [cl_fallback_exn]
  split_ifs with hc
  · simp
  · exact hc

/-- A parsed reply with any of the five fields missing is handled exactly
like a parse failure. -/
theorem generate_obj_missing (exps : List CLExperience) (techs : List String)
    (cn : Option String) (o : CLObj)
    (hmiss : o.intro = none ∨ o.body_paragraphs = none ∨ o.closing = none ∨
      o.company_name = none ∨ o.recipient_name = none) :
    generate_cover_letter_content exps techs cn (CLResp.obj o) =
      cl_fallback_parse exps techs (cl_company_name cn) := by
  obtain ⟨oi, ob, oc, ocn, orn⟩ := o
  rcases hmiss with h | h | h | h | h <;>
    cases oi <;> cases ob <;> cases oc <;> cases ocn <;> cases orn <;>
      first
        | rfl
        | exact absurd h (by simp)

/-- Claim C8: on a service exception, an unparseable reply, or a parsed reply
missing any of the five required fields, generate_cover_letter_content
returns a fixed fallback draft whose five fields are all non-empty (never a
partial or empty draft); a reply missing a field yields exactly the
parse-failure fallback, independent of the rest of the reply; and when all
five fields are present, a body_paragraphs that is a single string is
coerced to a one-element list. -/
theorem claim_C8_cover_letter_fallback (exps : List CLExperience)
    (techs : List String) (cn : Option String) (resp : CLResp) :
    ((resp = CLResp.exn ∨ resp = CLResp.parseFail ∨
        (∃ o, resp = CLResp.obj o ∧ (o.intro = none ∨ o.body_paragraphs = none ∨
          o.closing = none ∨ o.company_name = none ∨ o.recipient_name = none))) →
      (generate_cover_letter_content exps techs cn resp).intro ≠ "" ∧
      (generate_cover_letter_content exps techs cn resp).body_paragraphs ≠ [] ∧
      (∀ p ∈ (generate_cover_letter_content exps techs cn resp).body_paragraphs,
        p ≠ "") ∧
      (generate_cover_letter_content exps techs cn resp).closing ≠ "" ∧
      (generate_cover_letter_content exps techs cn resp).company_name ≠ "" ∧
      (generate_cover_letter_content exps techs cn resp).recipient_name ≠ "") ∧
    (∀ o, resp = CLResp.obj o →
      (o.intro = none ∨ o.body_paragraphs = none ∨ o.closing = none ∨
        o.company_name = none ∨ o.recipient_name = none) →
      generate_cover_letter_content exps techs cn resp =
        generate_cover_letter_content exps techs cn CLResp.parseFail) ∧
    (∀ o s, resp = CLResp.obj o → o.intro.isSome → o.closing.isSome →
      o.company_name.isSome → o.recipient_name.isSome →
      o.body_paragraphs = some (BodyVal.str s) →
      (generate_cover_letter_content exps techs cn resp).body_paragraphs = [s]) := by
  refine ⟨?_, ?_, ?_⟩
  · intro hfail
    rcases hfail with h | h | ⟨o, ho, hmiss⟩
    · subst h
      exact cl_fallback_exn_fields (cl_company_name cn)
    · subst h
      exact cl_fallback_parse_fields exps techs (cl_company_name cn)
    · subst ho
      rw [generate_obj_missing exps techs cn o hmiss]
      exact cl_fallback_parse_fields exps techs (cl_company_name cn)
  · intro o ho hmiss
    subst ho
    rw [generate_obj_missing exps techs cn o hmiss]
    rfl
  · intro o s ho hi hc hcn hrn hb
    subst ho
    obtain ⟨oi, ob, oc, ocn, orn⟩ := o
    obtain ⟨i, rfl⟩ := Option.isSome_iff_exists.mp hi
    obtain ⟨c, rfl⟩ := Option.isSome_iff_exists.mp hc
    obtain ⟨cname, rfl⟩ := Option.isSome_iff_exists.mp hcn
    obtain ⟨rn, rfl⟩ := Option.isSome_iff_exists.mp hrn
    have hb' : ob = some (BodyVal.str s) := hb
    subst hb'
    rfl

/-- Witness for claim C8: a reply missing the closing field triggers the
parse-failure fallback with all fields populated; a complete reply with a
single-string body is coerced. -/
theorem claim_C8_witness :
    generate_cover_letter_content [⟨some "Dev"⟩] ["Py", "JS", "Go", "Rust"]
      none (CLResp.obj ⟨some "i", some (BodyVal.str "b"), none, some "Acme",
        some "HM"⟩) =
      generate_cover_letter_content [⟨some "Dev"⟩] ["Py", "JS", "Go", "Rust"]
        none CLResp.parseFail ∧
    (generate_cover_letter_content [⟨some "Dev"⟩] ["Py", "JS", "Go", "Rust"]
      none (CLResp.obj ⟨some "i", some (BodyVal.str "b"), none, some "Acme",
        some "HM"⟩)).closing ≠ "" ∧
    (generate_cover_letter_content [⟨some "Dev"⟩] ["Py", "JS", "Go", "Rust"]
      none (CLResp.obj ⟨some "i", some (BodyVal.str "b"), some "c", some "Acme",
        some "HM"⟩)).body_paragraphs = ["b"] := by
  have h := claim_C8_cover_letter_fallback [⟨some "Dev"⟩] ["Py", "JS", "Go", "Rust"]
    none (CLResp.obj ⟨some "i", some (BodyVal.str "b"), none, some "Acme", some "HM"⟩)
  have h2 := claim_C8_cover_letter_fallback [⟨some "Dev"⟩] ["Py", "JS", "Go", "Rust"]
    none (CLResp.obj ⟨some "i", some (BodyVal.str "b"), some "c", some "Acme", some "HM"⟩)
  refine ⟨h.2.1 _ rfl (Or.inr (Or.inr (Or.inl rfl))), ?_, ?_⟩
  · exact (h.1 (Or.inr (Or.inr ⟨_, rfl, Or.inr (Or.inr (Or.inl rfl))⟩))).2.2.2.1
  · exact h2.2.2 _ "b" rfl (by decide) (by decide) (by decide) (by decide) rfl

/-- Every exit path of stage 4 yields code 0 or 1. -/
theorem pipeline_step4_code (steps : List String) (env : PipelineEnv)
    (att : List String) :
    (pipeline_step4 steps env att).1 = 0 ∨ (pipeline_step4 steps env att).1 = 1 := by
  rw [pipeline_step4]
  split_ifs <;> simp

/-- Every exit path of stages 3-4 yields code 0 or 1. -/
theorem pipeline_step3_code (steps : List String) (env : PipelineEnv)
    (att : List String) :
    (pipeline_step3 steps env att).1 = 0 ∨ (pipeline_step3 steps env att).1 = 1 := by
  rw [pipeline_step3]
  split_ifs <;> first | exact pipeline_step4_code _ _ _ | simp

/-- Every exit path of stages 2-4 yields code 0 or 1. -/
theorem pipeline_step2_code (steps : List String) (env : PipelineEnv)
    (att : List String) :
    (pipeline_step2 steps env att).1 = 0 ∨ (pipeline_step2 steps env att).1 = 1 := by
  rw [pipeline_step2]
  split_ifs <;> first | exact pipeline_step3_code _ _ _ | simp

/-- The orchestrator always exits 0 or 1. -/
theorem pipeline_main_code (steps : List String) (env : PipelineEnv) :
    (pipeline_main steps env).1 = 0 ∨ (pipeline_main steps env).1 = 1 := by
  rw [pipeline_main]
  split_ifs <;> first | exact pipeline_step2_code _ _ _ | simp

/-- Stage 4 exits 0 when its subprocess succeeds and its precondition holds. -/
theorem pipeline_step4_success (steps : List String) (env : PipelineEnv)
    (att : List String)
    (h4 : "4" ∈ steps → env.run_ok "4" = true)
    (hp4 : "4" ∈ steps → ("2" ∈ steps ∨ env.step2_artifact = true)) :
    (pipeline_step4 steps env att).1 = 0 := by
  rw [pipeline_step4]
  split_ifs with ha hb hc
  · rfl
  · exact absurd (h4 ha) hc
  · exact absurd (hp4 ha) hb
  · rfl

/-- Stages 3-4 exit 0 when each requested one succeeds with precondition. -/
theorem pipeline_step3_success (steps : List String) (env : PipelineEnv)
    (att : List String)
    (h3 : "3" ∈ steps → env.run_ok "3" = true)
    (hp3 : "3" ∈ steps → ("2" ∈ steps ∨ env.step2_artifact = true))
    (h4 : "4" ∈ steps → env.run_ok "4" = true)
    (hp4 : "4" ∈ steps → ("2" ∈ steps ∨ env.step2_artifact = true)) :
    (pipeline_step3 steps env att).1 = 0 := by
  rw [pipeline_step3]
  split_ifs with ha hb hc
  · exact pipeline_step4_success _ _ _ h4 hp4
  · exact absurd (h3 ha) hc
  · exact absurd (hp3 ha) hb
  · exact pipeline_step4_success _ _ _ h4 hp4

/-- Stages 2-4 exit 0 when each requested one succeeds with precondition. -/
theorem pipeline_step2_success (steps : List String) (env : PipelineEnv)
    (att : List String)
    (h2 : "2" ∈ steps → env.run_ok "2" = true)
    (hp2 : "2" ∈ steps → ("1" ∈ steps ∨ env.step1_artifact = true))
    (h3 : "3" ∈ steps → env.run_ok "3" = true)
    (hp3 : "3" ∈ steps → ("2" ∈ steps ∨ env.step2_artifact = true))
    (h4 : "4" ∈ steps → env.run_ok "4" = true)
    (hp4 : "4" ∈ steps → ("2" ∈ steps ∨ env.step2_artifact = true)) :
    (pipeline_step2 steps env att).1 = 0 := by
  rw [pipeline_step2]
  split_ifs with ha hb hc
  · exact pipeline_step3_success _ _ _ h3 hp3 h4 hp4
  · exact absurd (h2 ha) hc
  · exact absurd (hp2 ha) hb
  · exact pipeline_step3_success _ _ _ h3 hp3 h4 hp4

/-- The orchestrator exits 0 when every requested stage succeeds and every
precondition artifact is available. -/
theorem pipeline_main_success (steps : List String) (env : PipelineEnv)
    (h1 : "1" ∈ steps → env.run_ok "1" = true)
    (h2 : "2" ∈ steps → env.run_ok "2" = true)
    (hp2 : "2" ∈ steps → ("1" ∈ steps ∨ env.step1_artifact = true))
    (h3 : "3" ∈ steps → env.run_ok "3" = true)
    (hp3 : "3" ∈ steps → ("2" ∈ steps ∨ env.step2_artifact = true))
    (h4 : "4" ∈ steps → env.run_ok "4" = true)
    (hp4 : "4" ∈ steps → ("2" ∈ steps ∨ env.step2_artifact = true)) :
    (pipeline_main steps env).1 = 0 := by
  rw [pipeline_main]
  split_ifs with ha hb
  · exact pipeline_step2_success _ _ _ h2 hp2 h3 hp3 h4 hp4
  · exact absurd (h1 ha) hb
  · exact pipeline_step2_success _ _ _ h2 hp2 h3 hp3 h4 hp4

/-- A failing subprocess at stage 4 is the last launch and exits 1. -/
theorem pipeline_step4_fail (steps : List String) (env : PipelineEnv)
    (att : List String) (s : String)
    (hok : ∀ t ∈ att, env.run_ok t = true)
    (hbound : ∀ t ∈ att, stageNum t ≤ 3)
    (hs : s ∈ (pipeline_step4 steps env att).2)
    (hf : env.run_ok s = false) :
    (pipeline_step4 steps env att).1 = 1 ∧
      ∀ t ∈ (pipeline_step4 steps env att).2, stageNum t ≤ stageNum s := by
  rw [pipeline_step4] at hs ⊢
  split_ifs at hs ⊢ with ha hb hc
  · rcases List.mem_append.mp hs with h | h
    · exact absurd (hok s h) (by rw [hf]; exact Bool.false_ne_true)
    · rw [List.mem_singleton] at h
      subst h
      exact absurd hc (by rw [hf]; exact Bool.false_ne_true)
  · rcases List.mem_append.mp hs with h | h
    · exact absurd (hok s h) (by rw [hf]; exact Bool.false_ne_true)
    · rw [List.mem_singleton] at h
      subst h
      refine ⟨rfl, fun t ht => ?_⟩
      rcases List.mem_append.mp ht with h' | h'
      · have := hbound t h'
        have h4 : stageNum "4" = 4 := by decide
        omega
      · rw [List.mem_singleton] at h'
        subst h'
        exact le_refl _
  · exact absurd (hok s hs) (by rw [hf]; exact Bool.false_ne_true)
  · exact absurd (hok s hs) (by rw [hf]; exact Bool.false_ne_true)

/-- A failing subprocess at stages 3-4 is the last launch and exits 1. -/
theorem pipeline_step3_fail (steps : List String) (env : PipelineEnv)
    (att : List String) (s : String)
    (hok : ∀ t ∈ att, env.run_ok t = true)
    (hbound : ∀ t ∈ att, stageNum t ≤ 2)
    (hs : s ∈ (pipeline_step3 steps env att).2)
    (hf : env.run_ok s = false) :
    (pipeline_step3 steps env att).1 = 1 ∧
      ∀ t ∈ (pipeline_step3 steps env att).2, stageNum t ≤ stageNum s := by
  rw [pipeline_step3] at hs ⊢
  split_ifs at hs ⊢ with ha hb hc
  · refine pipeline_step4_fail steps env _ s ?_ ?_ hs hf
    · intro t ht
      rcases List.mem_append.mp ht with h | h
      · exact hok t h
      · rw [List.mem_singleton] at h
        subst h
        exact hc
    · intro t ht
      rcases List.mem_append.mp ht with h | h
      · have := hbound t h
        omega
      · rw [List.mem_singleton] at h
        subst h
        decide
  · rcases List.mem_append.mp hs with h | h
    · exact absurd (hok s h) (by rw [hf]; exact Bool.false_ne_true)
    · rw [List.mem_singleton] at h
      subst h
      refine ⟨rfl, fun t ht => ?_⟩
      rcases List.mem_append.mp ht with h' | h'
      · have := hbound t h'
        have h3 : stageNum "3" = 3 := by decide
        omega
      · rw [List.mem_singleton] at h'
        subst h'
        exact le_refl _
  · exact absurd (hok s hs) (by rw [hf]; exact Bool.false_ne_true)
  · refine pipeline_step4_fail steps env _ s hok ?_ hs hf
    intro t ht
    have := hbound t ht
    omega

/-- A failing subprocess at stages 2-4 is the last launch and exits 1. -/
theorem pipeline_step2_fail (steps : List String) (env : PipelineEnv)
    (att : List String) (s : String)
    (hok : ∀ t ∈ att, env.run_ok t = true)
    (hbound : ∀ t ∈ att, stageNum t ≤ 1)
    (hs : s ∈ (pipeline_step2 steps env att).2)
    (hf : env.run_ok s = false) :
    (pipeline_step2 steps env att).1 = 1 ∧
      ∀ t ∈ (pipeline_step2 steps env att).2, stageNum t ≤ stageNum s := by
  rw [pipeline_step2] at hs ⊢
  split_ifs at hs ⊢ with ha hb hc
  · refine pipeline_step3_fail steps env _ s ?_ ?_ hs hf
    · intro t ht
      rcases List.mem_append.mp ht with h | h
      · exact hok t h
      · rw [List.mem_singleton] at h
        subst h
        exact hc
    · intro t ht
      rcases List.mem_append.mp ht with h | h
      · have := hbound t h
        omega
      · rw [List.mem_singleton] at h
        subst h
        decide
  · rcases List.mem_append.mp hs with h | h
    · exact absurd (hok s h) (by rw [hf]; exact Bool.false_ne_true)
    · rw [List.mem_singleton] at h
      subst h
      refine ⟨rfl, fun t ht => ?_⟩
      rcases List.mem_append.mp ht with h' | h'
      · have := hbound t h'
        have h2 : stageNum "2" = 2 := by decide
        omega
      · rw [List.mem_singleton] at h'
        subst h'
        exact le_refl _
  · exact absurd (hok s hs) (by rw [hf]; exact Bool.false_ne_true)
  · refine pipeline_step3_fail steps env _ s hok ?_ hs hf
    intro t ht
    have := hbound t ht
    omega

/-- A failing subprocess anywhere in the pipeline is the last launch and the
orchestrator exits 1. -/
theorem pipeline_main_fail (steps : List String) (env : PipelineEnv) (s : String)
    (hs : s ∈ (pipeline_main steps env).2)
    (hf : env.run_ok s = false) :
    (pipeline_main steps env).1 = 1 ∧
      ∀ t ∈ (pipeline_main steps env).2, stageNum t ≤ stageNum s := by
  rw [pipeline_main] at hs ⊢
  split_ifs at hs ⊢ with ha hb
  · refine pipeline_step2_fail steps env _ s ?_ ?_ hs hf
    · intro t ht
      rw [List.mem_singleton] at ht
      subst ht
      exact hb
    · intro t ht
      rw [List.mem_singleton] at ht
      subst ht
      decide
  · rw [List.mem_singleton] at hs
    subst hs
    exact ⟨rfl, fun t ht => by rw [List.mem_singleton] at ht; subst ht; exact le_refl _⟩
  · refine pipeline_step2_fail steps env _ s ?_ ?_ hs hf <;>
      intro t ht <;> cases ht

/-- Stage 3 halts when its precondition artifact is missing: exit 1 and the
launched stages stay strictly below stage 3. -/
theorem pipeline_step3_pre (steps : List String) (env : PipelineEnv)
    (att : List String)
    (h3 : "3" ∈ steps) (h2 : "2" ∉ steps) (ha : env.step2_artifact = false)
    (hatt : ∀ t ∈ att, stageNum t < stageNum "3") :
    (pipeline_step3 steps env att).1 = 1 ∧
      ∀ t ∈ (pipeline_step3 steps env att).2, stageNum t < stageNum "3" := by
  rw [pipeline_step3, if_pos h3, if_neg (by simp [h2, ha])]
  exact ⟨rfl, hatt⟩

/-- Stage 4 halts when its precondition artifact is missing: exit 1 and the
launched stages stay strictly below stage 4. -/
theorem pipeline_step4_pre (steps : List String) (env : PipelineEnv)
    (att : List String)
    (h4 : "4" ∈ steps) (h2 : "2" ∉ steps) (ha : env.step2_artifact = false)
    (hatt : ∀ t ∈ att, stageNum t < stageNum "4") :
    (pipeline_step4 steps env att).1 = 1 ∧
      ∀ t ∈ (pipeline_step4 steps env att).2, stageNum t < stageNum "4" := by
  rw [pipeline_step4, if_pos h4, if_neg (by simp [h2, ha])]
  exact ⟨rfl, hatt⟩

/-- Stages 3-4: with no step 2 output available, a requested stage 4 never
launches and no stage numbered 3 or higher launches either (a requested
stage 3 halts at its own missing precondition first). -/
theorem pipeline_step3_pre4 (steps : List String) (env : PipelineEnv)
    (att : List String)
    (h4 : "4" ∈ steps) (h2 : "2" ∉ steps) (ha : env.step2_artifact = false)
    (hatt : ∀ t ∈ att, stageNum t < stageNum "4") :
    (pipeline_step3 steps env att).1 = 1 ∧
      ∀ t ∈ (pipeline_step3 steps env att).2, stageNum t < stageNum "4" := by
  rw [pipeline_step3]
  split_ifs with hb hc hd
  · exact absurd hc (by simp [h2, ha])
  · exact absurd hc (by simp [h2, ha])
  · exact ⟨rfl, hatt⟩
  · exact pipeline_step4_pre steps env _ h4 h2 ha hatt

/-- Stages 2-4: missing-precondition propagation for stage 3. -/
theorem pipeline_step2_pre3 (steps : List String) (env : PipelineEnv)
    (att : List String)
    (h3 : "3" ∈ steps) (h2 : "2" ∉ steps) (ha : env.step2_artifact = false)
    (hatt : ∀ t ∈ att, stageNum t < stageNum "3") :
    (pipeline_step2 steps env att).1 = 1 ∧
      ∀ t ∈ (pipeline_step2 steps env att).2, stageNum t < stageNum "3" := by
  rw [pipeline_step2, if_neg h2]
  exact pipeline_step3_pre steps env att h3 h2 ha hatt

/-- Stages 2-4: missing-precondition propagation for stage 4. -/
theorem pipeline_step2_pre4 (steps : List String) (env : PipelineEnv)
    (att : List String)
    (h4 : "4" ∈ steps) (h2 : "2" ∉ steps) (ha : env.step2_artifact = false)
    (hatt : ∀ t ∈ att, stageNum t < stageNum "4") :
    (pipeline_step2 steps env att).1 = 1 ∧
      ∀ t ∈ (pipeline_step2 steps env att).2, stageNum t < stageNum "4" := by
  rw [pipeline_step2, if_neg h2]
  exact pipeline_step3_pre4 steps env att h4 h2 ha hatt

/-- The orchestrator: stage 2 with neither an in-run step 1 nor a step 1
artifact exits 1 and every launched stage is strictly below stage 2. -/
theorem pipeline_main_pre2 (steps : List String) (env : PipelineEnv)
    (h2 : "2" ∈ steps) (h1 : "1" ∉ steps) (ha : env.step1_artifact = false) :
    (pipeline_main steps env).1 = 1 ∧
      ∀ t ∈ (pipeline_main steps env).2, stageNum t < stageNum "2" := by
  rw [pipeline_main, if_neg h1, pipeline_step2, if_pos h2, if_neg (by simp [h1, ha])]
  exact ⟨rfl, fun t ht => absurd ht (List.not_mem_nil t)⟩

/-- The orchestrator: stage 3 with no step 2 output available exits 1 and
every launched stage is strictly below stage 3. -/
theorem pipeline_main_pre3 (steps : List String) (env : PipelineEnv)
    (h3 : "3" ∈ steps) (h2 : "2" ∉ steps) (ha : env.step2_artifact = false) :
    (pipeline_main steps env).1 = 1 ∧
      ∀ t ∈ (pipeline_main steps env).2, stageNum t < stageNum "3" := by
  rw [pipeline_main]
  split_ifs with hb hc
  · exact pipeline_step2_pre3 steps env _ h3 h2 ha (by decide)
  · exact ⟨rfl, by decide⟩
  · exact pipeline_step2_pre3 steps env _ h3 h2 ha
      (fun t ht => absurd ht (List.not_mem_nil t))

/-- The orchestrator: stage 4 with no step 2 output available exits 1 and
every launched stage is strictly below stage 4. -/
theorem pipeline_main_pre4 (steps : List String) (env : PipelineEnv)
    (h4 : "4" ∈ steps) (h2 : "2" ∉ steps) (ha : env.step2_artifact = false) :
    (pipeline_main steps env).1 = 1 ∧
      ∀ t ∈ (pipeline_main steps env).2, stageNum t < stageNum "4" := by
  rw [pipeline_main]
  split_ifs with hb hc
  · exact pipeline_step2_pre4 steps env _ h4 h2 ha (by decide)
  · exact ⟨rfl, by decide⟩
  · exact pipeline_step2_pre4 steps env _ h4 h2 ha
      (fun t ht => absurd ht (List.not_mem_nil t))

/-- Claim C9: the orchestrator exits 0 or 1; it exits 0 when every requested
stage has its precondition available and its subprocess succeeds; a stage
whose subprocess fails is the last stage launched and forces exit code 1 (no
later stage is attempted); and a stage whose precondition artifact is missing
forces exit code 1 with that stage never launched and every launched stage
strictly earlier than it (so no later stage is attempted either). -/
theorem claim_C9_orchestrator_halt (steps : List String) (env : PipelineEnv) :
    ((pipeline_main steps env).1 = 0 ∨ (pipeline_main steps env).1 = 1) ∧
    ((∀ s ∈ ["1", "2", "3", "4"], s ∈ steps → env.run_ok s = true) →
      ("2" ∈ steps → ("1" ∈ steps ∨ env.step1_artifact = true)) →
      ("3" ∈ steps → ("2" ∈ steps ∨ env.step2_artifact = true)) →
      ("4" ∈ steps → ("2" ∈ steps ∨ env.step2_artifact = true)) →
      (pipeline_main steps env).1 = 0) ∧
    (∀ s, s ∈ (pipeline_main steps env).2 → env.run_ok s = false →
      (pipeline_main steps env).1 = 1 ∧
      ∀ t ∈ (pipeline_main steps env).2, stageNum t ≤ stageNum s) ∧
    ("2" ∈ steps → "1" ∉ steps → env.step1_artifact = false →
      (pipeline_main steps env).1 = 1 ∧ "2" ∉ (pipeline_main steps env).2 ∧
      ∀ t ∈ (pipeline_main steps env).2, stageNum t < stageNum "2") ∧
    ("3" ∈ steps → "2" ∉ steps → env.step2_artifact = false →
      (pipeline_main steps env).1 = 1 ∧ "3" ∉ (pipeline_main steps env).2 ∧
      ∀ t ∈ (pipeline_main steps env).2, stageNum t < stageNum "3") ∧
    ("4" ∈ steps → "2" ∉ steps → env.step2_artifact = false →
      (pipeline_main steps env).1 = 1 ∧ "4" ∉ (pipeline_main steps env).2 ∧
      ∀ t ∈ (pipeline_main steps env).2, stageNum t < stageNum "4") := by
  refine ⟨pipeline_main_code steps env, ?_, ?_, ?_, ?_, ?_⟩
  · intro hall hp2 hp3 hp4
    exact pipeline_main_success steps env
      (hall "1" (by decide)) (hall "2" (by decide)) hp2
      (hall "3" (by decide)) hp3 (hall "4" (by decide)) hp4
  · intro s hs hf
    exact pipeline_main_fail steps env s hs hf
  · intro h2 h1 ha
    have h := pipeline_main_pre2 steps env h2 h1 ha
    exact ⟨h.1, fun hc => absurd (h.2 "2" hc) (lt_irrefl _), h.2⟩
  · intro h3 h2 ha
    have h := pipeline_main_pre3 steps env h3 h2 ha
    exact ⟨h.1, fun hc => absurd (h.2 "3" hc) (lt_irrefl _), h.2⟩
  · intro h4 h2 ha
    have h := pipeline_main_pre4 steps env h4 h2 ha
    exact ⟨h.1, fun hc => absurd (h.2 "4" hc) (lt_irrefl _), h.2⟩

/-- Witness for claim C9: stages 1-3 requested and stage 2's subprocess
fails, so the pipeline exits 1 and stage 3 is never attempted; and stages 2-3
requested with no step 1 artifact, so the pipeline exits 1 with neither stage
2 nor stage 3 attempted. -/
theorem claim_C9_witness :
    ((pipeline_main ["1", "2", "3"]
        ⟨fun s => if s = "2" then false else true, false, false⟩).1 = 1 ∧
      "3" ∉ (pipeline_main ["1", "2", "3"]
        ⟨fun s => if s = "2" then false else true, false, false⟩).2) ∧
    ((pipeline_main ["2", "3"] ⟨fun _ => true, false, false⟩).1 = 1 ∧
      "2" ∉ (pipeline_main ["2", "3"] ⟨fun _ => true, false, false⟩).2 ∧
      "3" ∉ (pipeline_main ["2", "3"] ⟨fun _ => true, false, false⟩).2) := by
  constructor
  · have h := claim_C9_orchestrator_halt ["1", "2", "3"]
      ⟨fun s => if s = "2" then false else true, false, false⟩
    have hm : "2" ∈ (pipeline_main ["1", "2", "3"]
        ⟨fun s => if s = "2" then false else true, false, false⟩).2 := by decide
    have hf := h.2.2.1 "2" hm (by decide)
    refine ⟨hf.1, fun hc => ?_⟩
    have ht := hf.2 "3" hc
    simp [stageNum] at ht
  · have h := claim_C9_orchestrator_halt ["2", "3"] ⟨fun _ => true, false, false⟩
    have hp := h.2.2.2.1 (by decide) (by decide) rfl
    refine ⟨hp.1, hp.2.1, fun hc => ?_⟩
    have ht := hp.2.2 "3" hc
    simp [stageNum] at ht

end ResumeGen
